import Mathlib

/-!
Verification of the gorgonia operator / autodiff core against its source.

The Go source under verification consists of three files:
  - the math-op file (elemBinOp, elemUnaryOp, linAlgBinOp),
  - operatorPointwise_binary.go (scalarBinOp, tBinOp, the differentiation rules),
  - op_reduction.go (maxOp, sumOp).

Machine floats are modelled as rationals (exact for every value appearing in the
claims); tensor storage is modelled as a list of rationals tagged with a dtype;
fallible Go functions return a result type with an explicit error channel and an
explicit process-abort (panic) outcome.  Collaborators living outside the three
source files (tensor kernels, shape predicates, Tensor.T, Broadcast, the Go
type pretty-printer) are modelled from the specification and are marked as such
in their doc comments.
-/

namespace Gor

/-- Element dtypes of the core: Float64 and Float32 from the spec data model,
plus Bool, which appears as the dtype of comparison results. -/
inductive Dtype where
| float64
| float32
| bool
deriving DecidableEq, Repr

/-- The closed enumeration of elementwise binary operator kinds, in the order of
the operator catalog (arithmetic kinds first, then comparison kinds). -/
inductive BinOpType where
| add
| sub
| mul
| div
| pow
| lt
| gt
| lte
| gte
| eq
| ne
deriving DecidableEq, Repr

/-- Modelled from the spec operator catalog: Add, Sub, Mul, Div and Pow are the
arithmetic kinds; Lt, Gt, Lte, Gte, Eq and Ne are comparison kinds. -/
def BinOpType.isArith : BinOpType → Bool
| .add => true
| .sub => true
| .mul => true
| .div => true
| .pow => true
| _ => false

/-- Modelled from the spec operator catalog: the byte value written for a kind
by binary.Write in WriteHash (the enumeration position of the kind). -/
def BinOpType.code : BinOpType → ℕ
| .add => 0
| .sub => 1
| .mul => 2
| .div => 3
| .pow => 4
| .lt => 5
| .gt => 6
| .lte => 7
| .gte => 8
| .eq => 9
| .ne => 10

/-- A bare scalar payload: the dtype-tagged raw numeric (or boolean) held by a
Scalar value.  Float32 and Float64 payloads are both modelled as rationals. -/
inductive ScalarV where
| f64 (q : ℚ)
| f32 (q : ℚ)
| b (v : Bool)
deriving DecidableEq, Repr

/-- The dtype of a scalar payload. -/
def ScalarV.dtype : ScalarV → Dtype
| .f64 _ => .float64
| .f32 _ => .float32
| .b _ => .bool

/-- The raw rational read out of a scalar payload when it is handed to a
numeric kernel (a boolean payload is never consumed numerically: every such
path errors out on the Bool dtype first). -/
def ScalarV.q : ScalarV → ℚ
| .f64 q => q
| .f32 q => q
| .b v => if v then 1 else 0

/-- A tensor view: dtype, backing storage (modelled as a flat list of
rationals), the transpose flag toggled by Tensor.T, and a model flag recording
whether Tensor.T reports an error on this view. -/
structure TView where
  t : Dtype
  data : List ℚ
  transposed : Bool
  tFails : Bool
deriving DecidableEq, Repr

/-- The Value union of the core: Scalar or Tensor, plus a third variant
standing for any other implementation of the Go Value interface (needed because
two claims are about values outside the Scalar/Tensor union); the extra variant
carries the dtype its Go counterpart would report. -/
inductive Value where
| scalar (s : ScalarV)
| tensor (v : TView)
| other (t : Dtype)
deriving DecidableEq, Repr

/-- The dtype reported by a value. -/
def Value.dtypeOf : Value → Dtype
| .scalar s => s.dtype
| .tensor v => v.t
| .other t => t

/-- Whether a value is a Tensor (the Go type assertion v.(Tensor) succeeds). -/
def Value.isTensor : Value → Bool
| .tensor _ => true
| _ => false

/-- Pruned operand types as consumed by newEBOByType and WriteHash: a bare
Dtype or a tensor type of some rank over a dtype. -/
inductive GType where
| dt (d : Dtype)
| tensorType (dims : ℕ) (of : Dtype)
deriving DecidableEq, Repr

/-- The type reported by Value.Type(): scalars report their Dtype, tensors a
tensor type over their dtype (rank is not tracked by the model: elementwise
dispatch only inspects the head constructor), and the extra variant reports the
dtype of the value it wraps. -/
def Value.type : Value → GType
| .scalar s => .dt s.dtype
| .tensor v => .tensorType 1 v.t
| .other t => .dt t

/-- Shapes are lists of dimension sizes. -/
abbrev Shape := List ℕ

/-- Modelled from the spec: the scalar shape (the empty shape). -/
def scalarShape : Shape := []

/-- Modelled from the spec: a shape is scalar iff it is the scalar shape. -/
def Shape.isScalar (s : Shape) : Bool := s.length == 0

/-- Errors returned as values by the core, including the reroute-value
sentinel noIncr that carries a correctly computed value back to the caller. -/
inductive GoErr where
| graphError (msg : String)
| typeMismatch (msg : String)
| shapeMismatch (msg : String)
| nyi (msg : String)
| notImplemented (msg : String)
| plain (msg : String)
| wrapped (msg : String) (inner : GoErr)
| noIncr (v : Value)
deriving DecidableEq, Repr

/-- Outcome of a fallible Go computation: a value, a returned error, or a
process abort (runtime panic). -/
inductive GoResult (α : Type) where
| ok (a : α)
| error (e : GoErr)
| panic
deriving DecidableEq, Repr

/-- Modelled from the spec: math.Pow on the rational model of floats.  Integer
exponents are computed exactly; a non-integer exponent (never exercised by any
claim) is collapsed to zero. -/
def mathPow (a b : ℚ) : ℚ :=
  if b.den = 1 then (if 0 ≤ b.num then a ^ b.num.toNat else (a ^ (-b.num).toNat)⁻¹) else 0

/- ------------------------------------------------------------------ -/
/- scalarBinOp (operatorPointwise_binary.go)                           -/
/- ------------------------------------------------------------------ -/

/-- scalarBinOp: a binary operator on two bare scalars of the declared dtype. -/
structure scalarBinOp where
  opType : BinOpType
  t : Dtype
deriving DecidableEq, Repr

/-- The Float64 arm of scalarBinOp.Do: the per-kind switch producing a raw
float or bool result. -/
def scalarEvalF64 (k : BinOpType) (af bf : ℚ) : ScalarV :=
  match k with
  | .add => .f64 (af + bf)
  | .sub => .f64 (af - bf)
  | .mul => .f64 (af * bf)
  | .div => .f64 (af / bf)
  | .pow => .f64 (mathPow af bf)
  | .lt => .b (decide (af < bf))
  | .gt => .b (decide (af > bf))
  | .lte => .b (decide (af ≤ bf))
  | .gte => .b (decide (af ≥ bf))
  | .eq => .b (decide (af = bf))
  | .ne => .b (decide (af ≠ bf))

/-- The Float32 arm of scalarBinOp.Do (same switch; float32 results). -/
def scalarEvalF32 (k : BinOpType) (af bf : ℚ) : ScalarV :=
  match k with
  | .add => .f32 (af + bf)
  | .sub => .f32 (af - bf)
  | .mul => .f32 (af * bf)
  | .div => .f32 (af / bf)
  | .pow => .f32 (mathPow af bf)
  | .lt => .b (decide (af < bf))
  | .gt => .b (decide (af > bf))
  | .lte => .b (decide (af ≤ bf))
  | .gte => .b (decide (af ≥ bf))
  | .eq => .b (decide (af = bf))
  | .ne => .b (decide (af ≠ bf))

/-- The retSame cast at the end of each dtype arm: when same is set and the
kind is a comparison, the boolean is cast to 1/0 of the dtype; if the result
were not a boolean the Go type assertion r.(bool) would panic. -/
def sameCast (o : scalarBinOp) (same : Bool) (numeric : ℚ → ScalarV) (r : ScalarV) :
    GoResult Value :=
  if same && !o.opType.isArith then
    match r with
    | .b true => .ok (.scalar (numeric 1))
    | .b false => .ok (.scalar (numeric 0))
    | _ => .panic
  else .ok (.scalar r)

/-- scalarBinOp.Do: arity check, Scalar checks, dtype checks, then the
per-dtype per-kind switch followed by the retSame cast. -/
def scalarBinOp.Do (o : scalarBinOp) (same : Bool) (vals : List Value) : GoResult Value :=
  match vals with
  | [va, vb] =>
    match va, vb with
    | .scalar a, .scalar b =>
      if a.dtype ≠ o.t then .error (.typeMismatch "Type mismatch for a")
      else if b.dtype ≠ o.t then .error (.typeMismatch "Type mismatch for b")
      else
        match o.t, a, b with
        | .float64, .f64 af, .f64 bf => sameCast o same ScalarV.f64 (scalarEvalF64 o.opType af bf)
        | .float32, .f32 af, .f32 bf => sameCast o same ScalarV.f32 (scalarEvalF32 o.opType af bf)
        | .bool, _, _ => .error (.nyi "scalarBinOp.Do - Unhandled Scalar Type")
        | _, _, _ => .panic
    | _, _ => .error (.typeMismatch "Expected both inputs to binOp to be Scalar")
  | _ => .error (.graphError "Executing a binary operation expects 2 inputs")

/- ------------------------------------------------------------------ -/
/- tBinOp (operatorPointwise_binary.go)                                -/
/- ------------------------------------------------------------------ -/

/-- tBinOp: a binary operator with at least one tensor operand; tensorLeft
records which side is the tensor. -/
structure tBinOp where
  opType : BinOpType
  tensorLeft : Bool
deriving DecidableEq, Repr

/-- Evaluation options threaded to the per-dtype kernels (types.FuncOpt).
The aliasing permission of UseUnsafe has no observable effect in this
functional model; AsSameType switches comparison kernels to numeric output;
WithIncr accumulates into the given buffer; WithReuse writes into it. -/
structure FuncOpts where
  inplace : Bool := false
  asSame : Bool := false
  incr : Option TView := none
  reuse : Option TView := none
deriving DecidableEq, Repr

/-- A materialized kernel operand: a tensor buffer or a broadcast scalar. -/
abbrev KOperand := List ℚ ⊕ ℚ

/-- Modelled from the spec: the arithmetic scalar kernels registered per kind
(registry tf64BinOps / tf32BinOps, applied elementwise). -/
def arithEval (k : BinOpType) (x y : ℚ) : ℚ :=
  match k with
  | .add => x + y
  | .sub => x - y
  | .mul => x * y
  | .div => x / y
  | .pow => mathPow x y
  | _ => 0

/-- Modelled from the spec: the comparison scalar kernels registered per kind
(registry tf64CmpOps / tf32CmpOps, applied elementwise). -/
def cmpEvalQ (k : BinOpType) (x y : ℚ) : Bool :=
  match k with
  | .lt => decide (x < y)
  | .gt => decide (x > y)
  | .lte => decide (x ≤ y)
  | .gte => decide (x ≥ y)
  | .eq => decide (x = y)
  | .ne => decide (x ≠ y)
  | _ => false

/-- Modelled from the spec: elementwise application of a binary scalar
function with scalar broadcast; tensor operands of unequal size fail. -/
def broadcast2 (f : ℚ → ℚ → ℚ) : KOperand → KOperand → GoResult (List ℚ)
| .inl xs, .inl ys =>
    if xs.length = ys.length then .ok (List.zipWith f xs ys)
    else .error (.shapeMismatch "Mismatched shapes")
| .inl xs, .inr y => .ok (xs.map (fun x => f x y))
| .inr x, .inl ys => .ok (ys.map (fun y => f x y))
| .inr x, .inr y => .ok [f x y]

/-- Modelled from the spec: the WithIncr option makes the kernel add its
result into the accumulator buffer (sizes must agree). -/
def applyIncr (opts : FuncOpts) (r : List ℚ) : GoResult (List ℚ) :=
  match opts.incr with
  | none => .ok r
  | some t =>
      if t.data.length = r.length then .ok (List.zipWith (fun a b => a + b) t.data r)
      else .error (.shapeMismatch "Mismatched shapes for incr")

/-- Extraction of one kernel operand in tBinOp.do: a tensor is materialized to
its buffer, a scalar contributes its raw value, any other value fails. -/
def extractOperand : Value → GoResult KOperand
| .tensor t => .ok (.inl t.data)
| .scalar s => .ok (.inr s.q)
| .other _ => .error (.nyi "tBinOp.do")

/-- tBinOp.do: arity check, dtype-equality check, operand extraction driven by
tensorLeft (the tensor side must be a Tensor), then kernel dispatch per dtype:
arithmetic kinds use the arithmetic registry, comparison kinds the comparison
registry (numeric output when AsSameType is set, boolean dtype otherwise). -/
def tBinOp.do (o : tBinOp) (opts : FuncOpts) (vals : List Value) : GoResult Value :=
  match vals with
  | [v0, v1] =>
    let d0 := v0.dtypeOf
    let d1 := v1.dtypeOf
    if d0 ≠ d1 then .error (.typeMismatch "Dtype mismatch for bin op")
    else
      let ab : GoResult (KOperand × KOperand) :=
        if o.tensorLeft then
          match v0 with
          | .tensor t =>
            match extractOperand v1 with
            | .ok b => .ok (.inl t.data, b)
            | .error e => .error e
            | .panic => .panic
          | _ => .error (.typeMismatch "Expected left value to be Tensor")
        else
          match v1 with
          | .tensor t =>
            match extractOperand v0 with
            | .ok a => .ok (a, .inl t.data)
            | .error e => .error e
            | .panic => .panic
          | _ => .error (.typeMismatch "Expected right value to be Tensor")
      match ab with
      | .error e => .error e
      | .panic => .panic
      | .ok (a, b) =>
        match d0 with
        | .float64 =>
          if o.opType.isArith then
            match broadcast2 (arithEval o.opType) a b with
            | .error e => .error (.wrapped "Calling the function failed" e)
            | .panic => .panic
            | .ok r =>
              match applyIncr opts r with
              | .error e => .error (.wrapped "Calling the function failed" e)
              | .panic => .panic
              | .ok r2 => .ok (.tensor ⟨.float64, r2, false, false⟩)
          else
            match broadcast2 (fun x y => if cmpEvalQ o.opType x y then 1 else 0) a b with
            | .error e => .error (.wrapped "Calling the function failed" e)
            | .panic => .panic
            | .ok r =>
              if opts.asSame then .ok (.tensor ⟨.float64, r, false, false⟩)
              else .ok (.tensor ⟨.bool, r, false, false⟩)
        | .float32 =>
          if o.opType.isArith then
            match broadcast2 (arithEval o.opType) a b with
            | .error e => .error (.wrapped "Calling the function failed" e)
            | .panic => .panic
            | .ok r =>
              match applyIncr opts r with
              | .error e => .error (.wrapped "Calling the function failed" e)
              | .panic => .panic
              | .ok r2 => .ok (.tensor ⟨.float32, r2, false, false⟩)
          else
            match broadcast2 (fun x y => if cmpEvalQ o.opType x y then 1 else 0) a b with
            | .error e => .error (.wrapped "Calling the function failed" e)
            | .panic => .panic
            | .ok r =>
              if opts.asSame then .ok (.tensor ⟨.float32, r, false, false⟩)
              else .ok (.tensor ⟨.bool, r, false, false⟩)
        | .bool => .error (.nyi "tBinOp.do")
  | _ => .error (.graphError "Executing a binary operation expects 2 inputs")

/-- tBinOp.Do: dispatches to do, adding the AsSameType option when same. -/
def tBinOp.Do (o : tBinOp) (same : Bool) (inputs : List Value) : GoResult Value :=
  if same then o.do { asSame := true } inputs else o.do {} inputs

/-- tBinOp.UnsafeDo: do with the UseUnsafe option. -/
def tBinOp.UnsafeDo (o : tBinOp) (inputs : List Value) : GoResult Value :=
  o.do { inplace := true } inputs

/-- tBinOp.UsePreallocDo: requires a Tensor destination, then do with reuse. -/
def tBinOp.UsePreallocDo (o : tBinOp) (v : Value) (inputs : List Value) : GoResult Value :=
  match v with
  | .tensor t => o.do { reuse := some t } inputs
  | _ => .error (.typeMismatch "Expected Tensor as preallocated value")

/- ------------------------------------------------------------------ -/
/- elemBinOp (math-op file)                                            -/
/- ------------------------------------------------------------------ -/

/-- The binary operator stored inside an elemBinOp: a scalarBinOp or a tBinOp. -/
inductive BinOperator where
| scalarBO (o : scalarBinOp)
| tensorBO (o : tBinOp)
deriving DecidableEq, Repr

/-- binOpType of the stored operator. -/
def BinOperator.binOpType : BinOperator → BinOpType
| .scalarBO o => o.opType
| .tensorBO o => o.opType

/-- BinaryOperator.Do dispatch. -/
def BinOperator.Do (b : BinOperator) (same : Bool) (vals : List Value) : GoResult Value :=
  match b with
  | .scalarBO o => o.Do same vals
  | .tensorBO o => o.Do same vals

/-- elemBinOp: the elementwise operation wrapper around a binary operator,
with the pruned operand types and the retSame flag. -/
structure elemBinOp where
  binOp : BinOperator
  arg0 : GType
  arg1 : GType
  retSame : Bool
deriving DecidableEq, Repr

/-- The kind of an elemBinOp (its stored operator's binOpType). -/
def elemBinOp.binOpTypeOf (op : elemBinOp) : BinOpType := op.binOp.binOpType

/-- newEBOByType: picks a scalarBinOp when both pruned types are dtypes, and a
tBinOp (with tensorLeft recording the tensor side) otherwise; the retSame field
is left at its zero value (false). -/
def newEBOByType (ot : BinOpType) (at0 bt : GType) : elemBinOp :=
  match at0 with
  | .dt d =>
    match bt with
    | .dt _ => ⟨.scalarBO ⟨ot, d⟩, at0, bt, false⟩
    | .tensorType _ _ => ⟨.tensorBO ⟨ot, false⟩, at0, bt, false⟩
  | .tensorType _ _ => ⟨.tensorBO ⟨ot, true⟩, at0, bt, false⟩

/-- elemBinOp.ReturnsPtr: true iff either operand type is a tensor type. -/
def elemBinOp.ReturnsPtr (op : elemBinOp) : Bool :=
  match op.arg0 with
  | .tensorType _ _ => true
  | _ =>
    match op.arg1 with
    | .tensorType _ _ => true
    | _ => false

/-- elemBinOp.Do: delegates to the stored operator with the retSame flag. -/
def elemBinOp.Do (op : elemBinOp) (vals : List Value) : GoResult Value :=
  op.binOp.Do op.retSame vals

/-- elemBinOp.UnsafeDo: plain Do when the op owns no buffer; otherwise the
stored operator's UnsafeDo when it has one (tBinOp does, scalarBinOp does not). -/
def elemBinOp.UnsafeDo (op : elemBinOp) (vals : List Value) : GoResult Value :=
  if !op.ReturnsPtr then op.Do vals
  else
    match op.binOp with
    | .tensorBO o => o.UnsafeDo vals
    | .scalarBO _ => op.Do vals

/-- elemBinOp.InferShape: nil inputs fail; scalar-scalar gives the scalar
shape, a scalar beside a tensor gives the tensor's shape; in the
tensor-tensor case the source's shape-inequality branch is empty (it holds
only a comment), so the first shape is returned unconditionally. -/
def elemBinOp.InferShape (op : elemBinOp) (inputs : List (Option Shape)) :
    GoResult Shape :=
  match op, inputs with
  | _, [ox, oy] =>
    match ox, oy with
    | some x, some y =>
      if x.isScalar && y.isScalar then .ok scalarShape
      else if x.isScalar && !y.isScalar then .ok y
      else if !x.isScalar && y.isScalar then .ok x
      else .ok x
    | _, _ => .error (.nyi "elemBinOp.inferShape")
  | _, _ => .panic

/-- elemBinOp.IncrDo: when the op owns no buffer, compute with Do, add the
accumulator to the result with an Add operation in unsafe mode, and return the
reroute-value sentinel; otherwise delegate to the stored operator's IncrDo
(only tBinOp has one; a buffer-owning scalarBinOp is unreachable). -/
def tBinOp.IncrDo (o : tBinOp) (incr : Value) (inputs : List Value) : GoResult Unit :=
  match incr with
  | .tensor t =>
    match o.do { incr := some t } inputs with
    | .ok _ => .ok ()
    | .error e => .error e
    | .panic => .panic
  | _ =>
    match o.do {} inputs with
    | .error e => .error (.wrapped "doFail" e)
    | .panic => .panic
    | .ok retVal =>
      let add := newEBOByType .add incr.type retVal.type
      match add.UnsafeDo [incr, retVal] with
      | .error e => .error (.wrapped "unsafeDoFail" e)
      | .panic => .panic
      | .ok sum => .error (.noIncr sum)

/-- elemBinOp.IncrDo (see tBinOp.IncrDo). -/
def elemBinOp.IncrDo (op : elemBinOp) (incr : Value) (inputs : List Value) :
    GoResult Unit :=
  if !op.ReturnsPtr then
    match op.Do inputs with
    | .error e => .error (.wrapped "doFail" e)
    | .panic => .panic
    | .ok retVal =>
      let add := newEBOByType .add incr.type retVal.type
      match add.UnsafeDo [incr, retVal] with
      | .error e => .error (.wrapped "unsafeDoFail" e)
      | .panic => .panic
      | .ok sum => .error (.noIncr sum)
  else
    match op.binOp with
    | .tensorBO o => o.IncrDo incr inputs
    | .scalarBO _ => .panic

/- ------------------------------------------------------------------ -/
/- elemBinOp.WriteHash (math-op file)                                  -/
/- ------------------------------------------------------------------ -/

/-- Modelled from the spec: the characters printed for a Dtype by the Go
percent-v verb (its String method). -/
def dtypeChars : Dtype → List Char
| .float64 => "Float64".data
| .float32 => "Float32".data
| .bool => "Bool".data

/-- Modelled from the spec: the characters printed for a pruned operand type
by the Go percent-v verb.  The real printers are injective and never print a
comma; the model keeps both properties (tensor rank is rendered in unary). -/
def GType.reprChars : GType → List Char
| .dt d => 'd' :: dtypeChars d
| .tensorType n of => 't' :: (List.replicate n '#' ++ 'd' :: dtypeChars of)

/-- elemBinOp.WriteHash as the data it feeds to the digest: binary.Write of
the operator kind (one byte, modelled as the kind's code), then the formatted
string arg0 comma arg1.  The retSame flag is not written. -/
def elemBinOp.hashStream (op : elemBinOp) : ℕ × List Char :=
  (op.binOpTypeOf.code, op.arg0.reprChars ++ ',' :: op.arg1.reprChars)

/- ------------------------------------------------------------------ -/
/- linAlgBinOp (math-op file)                                          -/
/- ------------------------------------------------------------------ -/

/-- The closed enumeration of linear-algebra operators. -/
inductive LinAlgOperator where
| matMul
| matVecMul
| vecDot
| outerProd
deriving DecidableEq, Repr

/-- linAlgBinOp: a dense linear-algebra operator with transpose flags. -/
structure linAlgBinOp where
  operator : LinAlgOperator
  transA : Bool
  transB : Bool
deriving DecidableEq, Repr

/-- Outcomes of the external collaborators used by linAlgBinOp.do: whether the
dense kernel fails, whether result conversion (anyToValue) fails, and the
opaque buffers the kernel would produce.  Modelled from the spec (the kernels
are an external compute capability whose failure is propagated, not retried). -/
structure ExtEnv where
  kernelFails : Bool
  convFails : Bool
  kdata : List ℚ
  kval : ℚ
deriving DecidableEq, Repr

/-- Modelled from the spec collaborator contract: Tensor.T toggles a transpose
flag on the view (reversible by calling again) and may report an error, in
which case the view is unchanged. -/
def tensorT (v : TView) : GoResult TView :=
  if v.tFails then .error (.plain "cannot transpose")
  else .ok ⟨v.t, v.data, !v.transposed, v.tFails⟩

/-- The deferred untranspose calls of linAlgBinOp.do, run on every exit in
LIFO order (second operand first); the return value of a deferred call is
discarded, so a failing deferred T leaves the view as it is. -/
def linAlgUndo (undoA undoB : Bool) (a b : TView) : List Value :=
  let b2 := if undoB then (match tensorT b with | .ok x => x | _ => b) else b
  let a2 := if undoA then (match tensorT a with | .ok x => x | _ => a) else a
  [.tensor a2, .tensor b2]

/-- Modelled from the spec: anyToValue wraps a raw scalar of the given dtype. -/
def scalarOfDtype (d : Dtype) (q : ℚ) : ScalarV :=
  match d with
  | .float32 => .f32 q
  | _ => .f64 q

/-- Result conversion step of linAlgBinOp.do (anyToValue after a successful
kernel call), with the deferred untransposes applied on both outcomes. -/
def linAlgConv (env : ExtEnv) (a b : TView) (undoA undoB : Bool) (v : Value) :
    GoResult Value × List Value :=
  if env.convFails then (.error (.plain "anyToValue failed"), linAlgUndo undoA undoB a b)
  else (.ok v, linAlgUndo undoA undoB a b)

/-- Kernel dispatch of linAlgBinOp.do.  For vecDot the source calls
ScalarValue() on the kernel's result before inspecting the kernel's error, so
a failing inner-product kernel panics on the nil result (the deferred
untransposes still run); the other kernels propagate failure as a wrapped
error. -/
def linAlgCore (env : ExtEnv) (op : linAlgBinOp) (a b : TView) (undoA undoB : Bool) :
    GoResult Value × List Value :=
  match op.operator with
  | .vecDot =>
    if env.kernelFails then (.panic, linAlgUndo undoA undoB a b)
    else linAlgConv env a b undoA undoB (.scalar (scalarOfDtype a.t env.kval))
  | _ =>
    if env.kernelFails then
      (.error (.wrapped "Failed to carry out operation" (.plain "kernel failure")),
        linAlgUndo undoA undoB a b)
    else linAlgConv env a b undoA undoB (.tensor ⟨a.t, env.kdata, false, false⟩)

/-- Second-operand transpose step of linAlgBinOp.do: on a transpose failure
the function returns, with only the first operand's deferred untranspose
registered. -/
def linAlgTransB (env : ExtEnv) (op : linAlgBinOp) (a b : TView) (undoA : Bool) :
    GoResult Value × List Value :=
  if op.transB then
    match tensorT b with
    | .error e => (.error (.wrapped "tFail" e), linAlgUndo undoA false a b)
    | .ok b1 => linAlgCore env op a b1 undoA true
    | .panic => (.panic, linAlgUndo undoA false a b)
  else linAlgCore env op a b undoA false

/-- linAlgBinOp.do: arity check, unchecked Tensor type assertions on both
operands (a non-Tensor operand panics), transient transposes with deferred
restoration, kernel dispatch and result conversion.  The second component of
the result is the post-call state of the operand list. -/
def linAlgBinOp.do (env : ExtEnv) (op : linAlgBinOp) (inputs : List Value) :
    GoResult Value × List Value :=
  match inputs with
  | [.tensor a, .tensor b] =>
    if op.transA then
      match tensorT a with
      | .error e => (.error (.wrapped "tFail" e), [.tensor a, .tensor b])
      | .ok a1 => linAlgTransB env op a1 b true
      | .panic => (.panic, [.tensor a, .tensor b])
    else linAlgTransB env op a b false
  | [_, _] => (.panic, inputs)
  | _ => (.error (.graphError "Executing a binary operation expects 2 inputs"), inputs)

/-- linAlgBinOp.Do: delegates to the shared private do. -/
def linAlgBinOp.Do (env : ExtEnv) (op : linAlgBinOp) (inputs : List Value) :
    GoResult Value :=
  (op.do env inputs).1

/-- linAlgBinOp.UsePreallocDo: requires a Tensor destination, then the shared
do (the reuse option only redirects the kernel's output buffer). -/
def linAlgBinOp.UsePreallocDo (env : ExtEnv) (op : linAlgBinOp) (prealloc : Value)
    (inputs : List Value) : GoResult Value :=
  match prealloc with
  | .tensor _ => (op.do env inputs).1
  | _ => .error (.typeMismatch "Expected Tensor as preallocated value")

/-- linAlgBinOp.IncrDo: a Tensor accumulator goes through the shared do with
the WithIncr option; any other accumulator gets compute-then-add-in-unsafe-mode
and the reroute-value sentinel. -/
def linAlgBinOp.IncrDo (env : ExtEnv) (op : linAlgBinOp) (incr : Value)
    (inputs : List Value) : GoResult Unit :=
  match incr with
  | .tensor _ =>
    match (op.do env inputs).1 with
    | .ok _ => .ok ()
    | .error e => .error e
    | .panic => .panic
  | _ =>
    match (op.do env inputs).1 with
    | .error e => .error (.wrapped "doFail" e)
    | .panic => .panic
    | .ok retVal =>
      let add := newEBOByType .add incr.type retVal.type
      match add.UnsafeDo [incr, retVal] with
      | .error e => .error (.wrapped "unsafeDoFail" e)
      | .panic => .panic
      | .ok sum => .error (.noIncr sum)

/- ------------------------------------------------------------------ -/
/- elemUnaryOp (math-op file)                                          -/
/- ------------------------------------------------------------------ -/

/-- The unary operator function stored in an elemUnaryOp: a float64 or a
float32 scalar function (the two registries of the catalog). -/
inductive UnaryOperator where
| sf64 (f : ℚ → ℚ)
| sf32 (f : ℚ → ℚ)

/-- elemUnaryOp: the elementwise unary operation wrapper. -/
structure elemUnaryOp where
  operator : UnaryOperator
  argTensor : Bool
  numericResult : Bool

/-- elemUnaryOp.do: arity check, then a switch on the value kind.  A tensor
applies the stored function elementwise (the operator cast to the matching
per-dtype function panics on a mismatch); a scalar applies it to the raw
value; the switch has no default branch, so any other value kind falls
through and the zero results (nil value, nil error) are returned. -/
def elemUnaryOp.do (op : elemUnaryOp) (inputs : List Value) : GoResult (Option Value) :=
  match inputs with
  | [a] =>
    match a with
    | .tensor v =>
      match v.t with
      | .float64 =>
        match op.operator with
        | .sf64 f => .ok (some (.tensor ⟨.float64, v.data.map f, false, false⟩))
        | _ => .panic
      | .float32 =>
        match op.operator with
        | .sf32 f => .ok (some (.tensor ⟨.float32, v.data.map f, false, false⟩))
        | _ => .panic
      | .bool => .error (.nyi "elemUnaryOp.do")
    | .scalar s =>
      match s with
      | .f32 q =>
        match op.operator with
        | .sf32 f => .ok (some (.scalar (.f32 (f q))))
        | _ => .panic
      | .f64 q =>
        match op.operator with
        | .sf64 f => .ok (some (.scalar (.f64 (f q))))
        | _ => .panic
      | .b _ => .error (.nyi "elemUnaryOp.do")
    | .other _ => .ok none
  | _ => .error (.graphError "Executing a unary operation expects 1 input")

/-- elemUnaryOp.Do: delegates to do with no options. -/
def elemUnaryOp.Do (op : elemUnaryOp) (inputs : List Value) : GoResult (Option Value) :=
  op.do inputs

/- ------------------------------------------------------------------ -/
/- Graph nodes and the differentiation rule endpoints                  -/
/- ------------------------------------------------------------------ -/

/-- Graph nodes as consumed by the differentiation rules: an atom with a
shape, or a node built by the external Broadcast constructor. -/
inductive GNode where
| atom (shape : Shape)
| broadcastNode (k : BinOpType) (a b : GNode)
deriving DecidableEq, Repr

/-- The shape reported by a node. -/
def GNode.shapeOf : GNode → Shape
| .atom s => s
| .broadcastNode _ a _ => a.shapeOf

/-- Modelled from the spec: Broadcast constructs a graph node applying the
kind with a broadcast pattern; node construction itself succeeds. -/
def broadcastG (k : BinOpType) (a b : GNode) : GoResult GNode :=
  .ok (.broadcastNode k a b)

/-- hadamardPowDiffExpr: the symbolic-differentiation builder for Pow,
unconditionally not yet implemented. -/
def hadamardPowDiffExpr (_x _y _z _grad : GNode) : GoResult (List GNode) :=
  .error (.plain "hadamardPowDiffExpr not yet implemented")

/-- hadamardPowDiff: the numeric backward function for Pow, unconditionally
not yet implemented. -/
def hadamardPowDiff (_x _y _z : GNode) : GoResult Unit :=
  .error (.plain "hadamardPowDiff not yet implemented")

/-- nondiffBinOpExpr: the symbolic-differentiation builder installed for the
non-differentiable (comparison) kinds. -/
def nondiffBinOpExpr (_x _y _z _grad : GNode) : GoResult (List GNode) :=
  .error (.plain "Nondifferentiable")

/-- nondiffBinOp: the numeric backward function installed for the
non-differentiable (comparison) kinds. -/
def nondiffBinOp (_x _y _z : GNode) : GoResult Unit :=
  .error (.plain "Non differentiable")

/-- Modelled from the spec: the per-kind symbolic-differentiation dispatch
table (defined outside the three source files).  Pow is bound to the
unimplemented builder and every comparison kind to the non-differentiable
failure builder; the four implemented arithmetic entries are not needed by any
claim and are left out of the model (none). -/
def binOpDiffExprs : BinOpType → Option (GNode → GNode → GNode → GNode → GoResult (List GNode))
| .pow => some hadamardPowDiffExpr
| .lt => some nondiffBinOpExpr
| .gt => some nondiffBinOpExpr
| .lte => some nondiffBinOpExpr
| .gte => some nondiffBinOpExpr
| .eq => some nondiffBinOpExpr
| .ne => some nondiffBinOpExpr
| _ => none

/-- Modelled from the spec: the per-kind numeric-differentiation dispatch
table (defined outside the three source files); same conventions as
binOpDiffExprs. -/
def binOpDiffFns : BinOpType → Option (GNode → GNode → GNode → GoResult Unit)
| .pow => some hadamardPowDiff
| .lt => some nondiffBinOp
| .gt => some nondiffBinOp
| .lte => some nondiffBinOp
| .gte => some nondiffBinOp
| .eq => some nondiffBinOp
| .ne => some nondiffBinOp
| _ => none

/- ------------------------------------------------------------------ -/
/- maxOp and sumOp (op_reduction.go)                                   -/
/- ------------------------------------------------------------------ -/

/-- maxOp: max-reduction along a set of axes over an input of rank d. -/
structure maxOp where
  along : List ℕ
  d : ℕ
deriving DecidableEq, Repr

/-- maxOp.Do: arity check, then unconditionally NotYetImplemented. -/
def maxOp.Do (_op : maxOp) (inputs : List Value) : GoResult Value :=
  if inputs.length ≠ 1 then .error (.graphError "Expected only one input for maxop")
  else .error (.notImplemented "maxOp")

/-- maxOp.inferShape: returns the scalar shape and no error, ignoring its
arguments. -/
def maxOp.inferShape (_op : maxOp) : GoResult Shape := .ok (scalarShape)

/-- maxOp.SymDiff: arity check, leftAxes computation, the broadcast equality
mask; the result slice retVal is never allocated (it stays the nil slice), so
the assignment of the broadcast multiply into index 0 of retVal panics with an
index-out-of-range as soon as the equality broadcast has succeeded (the Go
multi-assignment evaluates the call, then performs the panicking index store
before the error result can be inspected). -/
def maxOp.SymDiff (op : maxOp) (inputs : List GNode) (output gradNode : GNode) :
    GoResult (List GNode) :=
  match inputs with
  | [t] =>
    let opDim := t.shapeOf.length
    let _leftAxes := (List.range opDim).filter (fun i => op.along.contains i)
    match broadcastG .eq output t with
    | .error e => .error (.wrapped "operationError" e)
    | .panic => .panic
    | .ok eqn =>
      let _res := broadcastG .mul gradNode eqn
      .panic
  | _ => .error (.graphError "Expect at least 1 input")

/-- Modelled from the spec: the shape predicates of the external tensor
package.  A shape is a plain vector when it has rank 1; a rank-2 shape with a
leading or trailing 1 is a row or column vector. -/
def Shape.isVector : Shape → Bool
| [_] => true
| [a, b] => a == 1 || b == 1
| _ => false

/-- Modelled from the spec: row-vector shape predicate. -/
def Shape.isRowVec : Shape → Bool
| [a, _] => a == 1
| _ => false

/-- Modelled from the spec: column-vector shape predicate. -/
def Shape.isColVec : Shape → Bool
| [_, b] => b == 1
| _ => false

/-- Modelled from the spec: types.IsMonotonicInts, returning whether the list
is monotonically non-decreasing and whether each step increases by exactly 1. -/
def monotonicIncr1 : List ℕ → Bool × Bool
| [] => (true, true)
| [_] => (true, true)
| a :: b :: rest =>
  let p := monotonicIncr1 (b :: rest)
  (p.1 && decide (a ≤ b), p.2 && (b == a + 1))

/-- The shape consisting of two size-1 axes (the oneone sentinel). -/
def oneone : Shape := [1, 1]

/-- The axis-collapsing loop of sumOp.inferShape: each listed axis is bounds
checked and then set to size 1. -/
def setAxes : List ℕ → Shape → GoResult Shape
| [], s => .ok s
| a :: rest, s =>
  if a < s.length then setAxes rest (s.set a 1)
  else .error (.shapeMismatch "Axis is greater or equal to the length of the shape")

/-- sumOp: sum-reduction along a set of axes. -/
structure sumOp where
  along : List ℕ
  d : ℕ
  inputShape : Shape
deriving DecidableEq, Repr

/-- sumOp.inferShape: scalar input stays scalar; a plain rank-1 vector reduces
to scalar when along is empty or exactly the 0 axis (otherwise shape
mismatch); otherwise the shape is cloned, an along longer than the shape is a
mismatch, a monotonic increment-1 along covering every axis short-circuits to
scalar, each listed axis is collapsed to size 1, and only a fully collapsed
shape equal to oneone is reduced to the scalar shape. -/
def sumOp.inferShape (op : sumOp) (inputs : List Shape) : GoResult Shape :=
  match inputs with
  | [s] =>
    if s.isScalar then .ok scalarShape
    else if s.isVector && !s.isRowVec && !s.isColVec then
      if op.along.length > 1 || (op.along.length == 1 && op.along.head? != some 0) then
        .error (.shapeMismatch "Shape mismatch: along")
      else .ok scalarShape
    else
      if op.along.length > s.length then .error (.shapeMismatch "Shape mismatch")
      else if (monotonicIncr1 op.along).1 && (monotonicIncr1 op.along).2
          && op.along.length == s.length then .ok scalarShape
      else
        match setAxes op.along s with
        | .error e => .error e
        | .panic => .panic
        | .ok sh => if sh == oneone then .ok scalarShape else .ok sh
  | _ => .error (.graphError "sumOp requires only one input")

/- ------------------------------------------------------------------ -/
/- Specification-side definitions used to state the claims             -/
/- ------------------------------------------------------------------ -/

/-- The mathematically correct sum of a scalar accumulator and a tensor
result: the scalar added to every element (the value the reroute sentinel of
IncrDo must carry). -/
def accumSum (s : ScalarV) (t : TView) : Value :=
  .tensor ⟨t.t, t.data.map (fun x => s.q + x), false, false⟩

/-- The mathematical truth value of a comparison kind on two numbers (used to
state what the scalar comparison evaluation must return). -/
def cmpTruth (k : BinOpType) (x y : ℚ) : Bool :=
  match k with
  | .lt => decide (x < y)
  | .gt => decide (x > y)
  | .lte => decide (x ≤ y)
  | .gte => decide (x ≥ y)
  | .eq => decide (x = y)
  | .ne => decide (x ≠ y)
  | _ => false

/-- Collapsing each listed axis of a shape to size 1 (the specification's
description of the reduction shape rule). -/
def collapseAxes (along : List ℕ) (s : Shape) : Shape :=
  along.foldl (fun sh a => sh.set a 1) s

/- ------------------------------------------------------------------ -/
/- Claim theorems                                                      -/
/- ------------------------------------------------------------------ -/

/-- C1: the claim says that elemBinOp.InferShape on two unequal tensor shapes
fails with ShapeMismatch.  The code's inequality branch is empty (it holds
only a comment), so for every elementwise binary operation the shapes [3,4]
and [2,2] produce the first shape with a nil error instead of an error: the
code contradicts the claim (and its own comment marking the error site). -/
theorem c1_elemBinOp_inferShape_mismatch_returns_ok (op : elemBinOp) :
    op.InferShape [some [3, 4], some [2, 2]] = .ok [3, 4] := rfl

/-- C3: Max forward evaluation on any single input fails NotYetImplemented and
Max shape inference succeeds, as the claim says; but Max symbolic
differentiation never succeeds: as soon as the equality Broadcast returns, the
source assigns index 0 of the never-allocated (nil) result slice and panics,
contradicting the claim that symbolic differentiation returns without error or
abort. -/
theorem c3_maxOp_do_notImplemented_symDiff_panics (op : maxOp) (v : Value)
    (t out grad : GNode) :
    op.Do [v] = .error (.notImplemented "maxOp") ∧
    op.inferShape = .ok scalarShape ∧
    op.SymDiff [t] out grad = .panic :=
  ⟨rfl, rfl, rfl⟩

/-- C9: elemUnaryOp forward evaluation of a value that is neither a Tensor nor
a Scalar returns a nil result and a nil error (success with no value): the
value-kind switch has no default branch, so such inputs fall through. -/
theorem c9_elemUnaryOp_do_other_returns_nil_nil (op : elemUnaryOp) (t : Dtype) :
    op.Do [.other t] = .ok none ∧ op.do [.other t] = .ok none :=
  ⟨rfl, rfl⟩

/-- C10: the shared private linAlgBinOp.do (and hence Do, IncrDo and
UsePreallocDo) performs unchecked Tensor type assertions on both operands, so
any call in which either operand is not a Tensor panics instead of returning a
TypeMismatch error value. -/
theorem c10_linalg_do_panics_on_non_tensor (env : ExtEnv) (op : linAlgBinOp)
    (u w : Value) (h : u.isTensor = false ∨ w.isTensor = false) :
    (linAlgBinOp.do env op [u, w]).1 = .panic ∧
    linAlgBinOp.Do env op [u, w] = .panic := by
  have hmain : (linAlgBinOp.do env op [u, w]).1 = .panic := by
    cases u <;> cases w <;> simp_all [Value.isTensor, linAlgBinOp.do]
  exact ⟨hmain, hmain⟩

/-- Witness for C10 at a concrete input: a Scalar first operand panics. -/
theorem c10_witness_scalar_operand :
    (linAlgBinOp.do ⟨false, false, [], 0⟩ ⟨.matMul, false, false⟩
        [.scalar (.f64 1), .tensor ⟨.float64, [1], false, false⟩]).1 = .panic ∧
    linAlgBinOp.Do ⟨false, false, [], 0⟩ ⟨.matMul, false, false⟩
        [.scalar (.f64 1), .tensor ⟨.float64, [1], false, false⟩] = .panic :=
  c10_linalg_do_panics_on_non_tensor ⟨false, false, [], 0⟩ ⟨.matMul, false, false⟩
    (.scalar (.f64 1)) (.tensor ⟨.float64, [1], false, false⟩) (Or.inl rfl)

/-- C8: linear-algebra forward evaluation restores each operand's view state
before returning on every path — transpose failures, kernel failures,
conversion failures and success alike: the post-call operand list equals the
pre-call operand list. -/
theorem c8_linalg_do_restores_transpose_state (env : ExtEnv) (op : linAlgBinOp)
    (inputs : List Value) :
    (linAlgBinOp.do env op inputs).2 = inputs := by
  rcases inputs with _ | ⟨v0, _ | ⟨v1, _ | ⟨v2, rest⟩⟩⟩
  · rfl
  · cases v0 <;> rfl
  · cases v0 <;> cases v1 <;> try rfl
    rename_i a b
    rcases a with ⟨ta, da, tra, tfa⟩
    rcases b with ⟨tb, db, trb, tfb⟩
    simp only [linAlgBinOp.do]
    by_cases hA : op.transA <;> by_cases hB : op.transB <;>
      cases tfa <;> cases tfb <;>
        cases hop : op.operator <;>
          by_cases hk : env.kernelFails <;> by_cases hc : env.convFails <;>
            simp [linAlgTransB, linAlgCore, linAlgConv, linAlgUndo, tensorT,
              hA, hB, hop, hk, hc]
  · cases v0 <;> cases v1 <;> rfl

/-- C2: tensor-binary IncrDo with a non-Tensor (scalar) accumulator never
reports plain success (the nil error that would signal in-place accumulation):
it computes the operation's result, adds the accumulator to it with the Add
operator in unsafe mode, and — whenever that computation succeeds — returns
exactly the reroute-value sentinel carrying the correctly computed sum (the
scalar added to every element of the result).  The elemBinOp wrapper delegates
its tensor-owning IncrDo to this same code path. -/
theorem c2_tBinOp_incrDo_reroutes_scalar_accumulator (o : tBinOp) (s : ScalarV)
    (inputs : List Value) :
    (∀ u, o.IncrDo (.scalar s) inputs ≠ .ok u) ∧
    (∀ tv : TView, o.do {} inputs = .ok (.tensor tv) → tv.t = s.dtype →
      (s.dtype = .float64 ∨ s.dtype = .float32) →
      o.IncrDo (.scalar s) inputs = .error (.noIncr (accumSum s tv))) ∧
    (∀ ebo : elemBinOp, ebo.binOp = .tensorBO o → ebo.ReturnsPtr = true →
      ebo.IncrDo (.scalar s) inputs = o.IncrDo (.scalar s) inputs) := by
  refine ⟨?_, ?_, ?_⟩
  · intro u hu
    simp only [tBinOp.IncrDo] at hu
    rcases h : o.do {} inputs with r | e | _ <;> rw [h] at hu <;> simp at hu
    rcases hadd : (newEBOByType .add (Value.scalar s).type r.type).UnsafeDo
        [.scalar s, r] with r2 | e2 | _ <;> rw [hadd] at hu <;> simp at hu
  · intro tv hdo ht hd
    simp only [tBinOp.IncrDo, hdo]
    rcases hd with hd | hd <;> cases s <;> simp [ScalarV.dtype] at hd <;>
      simp [Value.type, ScalarV.dtype, newEBOByType, elemBinOp.UnsafeDo,
        elemBinOp.ReturnsPtr, tBinOp.UnsafeDo, tBinOp.do, Value.dtypeOf,
        ScalarV.q, extractOperand, broadcast2, applyIncr, arithEval,
        BinOpType.isArith, accumSum, ht]
  · intro ebo hb hr
    simp [elemBinOp.IncrDo, hb, hr]

/-- Witness for C2 at a concrete input: an elementwise Mul of the tensor
storing 1,2 by the scalar 3 accumulated into the scalar accumulator 2 returns
the reroute sentinel carrying the tensor storing 5,8. -/
theorem c2_witness_incrDo_concrete :
    tBinOp.IncrDo ⟨.mul, true⟩ (.scalar (.f64 2))
        [.tensor ⟨.float64, [1, 2], false, false⟩, .scalar (.f64 3)] =
      .error (.noIncr (.tensor ⟨.float64, [5, 8], false, false⟩)) := by
  have hdo : tBinOp.do ⟨.mul, true⟩ {}
      [.tensor ⟨.float64, [1, 2], false, false⟩, .scalar (.f64 3)] =
      .ok (.tensor ⟨.float64, [3, 6], false, false⟩) := by
    simp [tBinOp.do, Value.dtypeOf, ScalarV.dtype, extractOperand, ScalarV.q,
      broadcast2, applyIncr, arithEval, BinOpType.isArith]
    norm_num
  have h := (c2_tBinOp_incrDo_reroutes_scalar_accumulator ⟨.mul, true⟩ (.f64 2)
      [.tensor ⟨.float64, [1, 2], false, false⟩, .scalar (.f64 3)]).2.1
      ⟨.float64, [3, 6], false, false⟩ hdo rfl (Or.inl rfl)
  rw [h]
  simp only [accumSum, ScalarV.q, List.map_cons, List.map_nil]
  norm_num

/-- With retSame unset, a comparison result is returned as the boolean it is. -/
lemma sameCast_cmp_false (o : scalarBinOp) (numeric : ℚ → ScalarV) (r : ScalarV) :
    sameCast o false numeric r = .ok (.scalar r) := by
  simp [sameCast]

/-- With retSame set on a comparison kind, the boolean result is cast to 1 or 0
of the operand dtype. -/
lemma sameCast_cmp_true (o : scalarBinOp) (h : o.opType.isArith = false)
    (numeric : ℚ → ScalarV) (c : Bool) :
    sameCast o true numeric (.b c) = .ok (.scalar (numeric (if c then 1 else 0))) := by
  cases c <;> simp [sameCast, h]

/-- The retSame flag has no effect on an arithmetic kind: the cast guard tests
the flag conjoined with non-arithmetic. -/
lemma scalarDo_same_irrel (o : scalarBinOp) (h : o.opType.isArith = true)
    (s1 s2 : Bool) (vals : List Value) : o.Do s1 vals = o.Do s2 vals := by
  unfold scalarBinOp.Do
  rcases vals with _ | ⟨va, _ | ⟨vb, _ | ⟨vc, rest⟩⟩⟩ <;> try rfl
  cases va <;> cases vb <;> try rfl
  rename_i a b
  by_cases ha : a.dtype ≠ o.t
  · simp [ha]
  · by_cases hb : b.dtype ≠ o.t
    · simp [ha, hb]
    · cases ho : o.t <;> cases a <;> cases b <;> simp [ha, hb, sameCast, h]

/-- C4: scalar evaluation of every comparison kind on operands of the declared
dtype returns the boolean truth of the comparison when retSame is false, and 1
or 0 of the operand dtype when retSame is true; every arithmetic kind is
unaffected by the retSame flag. -/
theorem c4_scalarBinOp_retSame (k : BinOpType) (x y : ℚ) :
    (k.isArith = false →
      (scalarBinOp.Do ⟨k, .float64⟩ false [.scalar (.f64 x), .scalar (.f64 y)]
          = .ok (.scalar (.b (cmpTruth k x y))) ∧
       scalarBinOp.Do ⟨k, .float64⟩ true [.scalar (.f64 x), .scalar (.f64 y)]
          = .ok (.scalar (.f64 (if cmpTruth k x y then 1 else 0))) ∧
       scalarBinOp.Do ⟨k, .float32⟩ false [.scalar (.f32 x), .scalar (.f32 y)]
          = .ok (.scalar (.b (cmpTruth k x y))) ∧
       scalarBinOp.Do ⟨k, .float32⟩ true [.scalar (.f32 x), .scalar (.f32 y)]
          = .ok (.scalar (.f32 (if cmpTruth k x y then 1 else 0))))) ∧
    (k.isArith = true → ∀ (t : Dtype) (s1 s2 : Bool) (vals : List Value),
      scalarBinOp.Do ⟨k, t⟩ s1 vals = scalarBinOp.Do ⟨k, t⟩ s2 vals) := by
  constructor
  · intro hk
    refine ⟨?_, ?_, ?_, ?_⟩ <;>
      cases k <;> simp [BinOpType.isArith] at hk <;>
        simp [scalarBinOp.Do, ScalarV.dtype, scalarEvalF64, scalarEvalF32,
          cmpTruth, sameCast_cmp_false, sameCast_cmp_true, BinOpType.isArith]
  · intro hk t s1 s2 vals
    exact scalarDo_same_irrel ⟨k, t⟩ hk s1 s2 vals

/-- Witness for C4 at the spec's example: Float64 2 less-than 3 gives the
boolean true with retSame unset and Float64 1 with retSame set. -/
theorem c4_witness_lt_float64 :
    scalarBinOp.Do ⟨.lt, .float64⟩ false [.scalar (.f64 2), .scalar (.f64 3)]
        = .ok (.scalar (.b true)) ∧
    scalarBinOp.Do ⟨.lt, .float64⟩ true [.scalar (.f64 2), .scalar (.f64 3)]
        = .ok (.scalar (.f64 1)) := by
  have h := (c4_scalarBinOp_retSame .lt 2 3).1 rfl
  exact ⟨h.1.trans (by decide), h.2.1.trans (by decide)⟩

/-- The hash byte written for an operator kind determines the kind. -/
lemma binOpCode_inj (k1 k2 : BinOpType) (h : k1.code = k2.code) : k1 = k2 := by
  cases k1 <;> cases k2 <;> first | rfl | exact absurd h (by decide)

/-- No comma occurs in the printed form of a dtype. -/
lemma comma_not_mem_dtypeChars (d : Dtype) : ',' ∉ dtypeChars d := by
  cases d <;> decide

/-- No comma occurs in the printed form of an operand type. -/
lemma comma_not_mem_reprChars (t : GType) : ',' ∉ t.reprChars := by
  cases t with
  | dt d => cases d <;> decide
  | tensorType n of =>
    intro hm
    simp only [GType.reprChars, List.mem_cons, List.mem_append, List.mem_replicate] at hm
    rcases hm with h | h
    · exact absurd h (by decide)
    rcases h with h | h
    · exact absurd h.2 (by decide)
    rcases h with h | h
    · exact absurd h (by decide)
    · exact comma_not_mem_dtypeChars of h

/-- Splitting a character stream at a separator absent from both prefixes is
unambiguous. -/
lemma sep_append_inj (c : Char) :
    ∀ (s0 t0 s1 t1 : List Char), c ∉ s0 → c ∉ t0 →
      s0 ++ c :: s1 = t0 ++ c :: t1 → s0 = t0 ∧ s1 = t1 := by
  intro s0
  induction s0 with
  | nil =>
    intro t0 s1 t1 _ h1 heq
    cases t0 with
    | nil => simpa using heq
    | cons x xs =>
      exfalso
      simp only [List.nil_append, List.cons_append, List.cons.injEq] at heq
      exact h1 (heq.1 ▸ List.mem_cons_self x xs)
  | cons a as ih =>
    intro t0 s1 t1 h0 h1 heq
    cases t0 with
    | nil =>
      exfalso
      simp only [List.nil_append, List.cons_append, List.cons.injEq] at heq
      exact h0 (heq.1 ▸ List.mem_cons_self a as)
    | cons x xs =>
      simp only [List.cons_append, List.cons.injEq] at heq
      have hrec := ih xs s1 t1 (fun hm => h0 (List.mem_cons_of_mem a hm))
        (fun hm => h1 (List.mem_cons_of_mem x hm)) heq.2
      exact ⟨by rw [heq.1, hrec.1], hrec.2⟩

/-- A run of one character followed by a distinct terminator splits
unambiguously. -/
lemma replicate_sep_inj (c d : Char) (hcd : c ≠ d) (n m : ℕ) (s t : List Char)
    (h : List.replicate n c ++ d :: s = List.replicate m c ++ d :: t) :
    n = m ∧ s = t := by
  have h0 : d ∉ List.replicate n c := by
    intro hm
    exact hcd ((List.eq_of_mem_replicate hm).symm)
  have h1 : d ∉ List.replicate m c := by
    intro hm
    exact hcd ((List.eq_of_mem_replicate hm).symm)
  have := sep_append_inj d (List.replicate n c) (List.replicate m c) s t h0 h1 h
  refine ⟨?_, this.2⟩
  have := congrArg List.length this.1
  simpa using this

/-- The printed form of a dtype determines the dtype. -/
lemma dtypeChars_inj (d1 d2 : Dtype) (h : dtypeChars d1 = dtypeChars d2) :
    d1 = d2 := by
  cases d1 <;> cases d2 <;> first | rfl | exact absurd h (by decide)

/-- The printed form of an operand type determines the type. -/
lemma reprChars_inj (t1 t2 : GType) (h : t1.reprChars = t2.reprChars) :
    t1 = t2 := by
  cases t1 with
  | dt d1 =>
    cases t2 with
    | dt d2 =>
      simp only [GType.reprChars, List.cons.injEq] at h
      rw [dtypeChars_inj d1 d2 h.2]
    | tensorType m of2 =>
      exfalso
      simp only [GType.reprChars, List.cons.injEq] at h
      exact absurd h.1 (by decide)
  | tensorType n of1 =>
    cases t2 with
    | dt d2 =>
      exfalso
      simp only [GType.reprChars, List.cons.injEq] at h
      exact absurd h.1 (by decide)
    | tensorType m of2 =>
      simp only [GType.reprChars, List.cons.injEq] at h
      have := replicate_sep_inj '#' 'd' (by decide) n m _ _ h.2
      rw [this.1, dtypeChars_inj of1 of2 this.2]

/-- C5 counterexample: two elementwise binary Operations identical in kind and
operand types but differing in the retSame flag feed identical inputs to the
structural-hash digest, refuting the claim that retSame is part of the hashed
identity. -/
theorem c5_counterexample_retSame_not_hashed :
    (⟨.scalarBO ⟨.lt, .float64⟩, .dt .float64, .dt .float64, false⟩ : elemBinOp) ≠
        ⟨.scalarBO ⟨.lt, .float64⟩, .dt .float64, .dt .float64, true⟩ ∧
    elemBinOp.hashStream ⟨.scalarBO ⟨.lt, .float64⟩, .dt .float64, .dt .float64, false⟩ =
        elemBinOp.hashStream ⟨.scalarBO ⟨.lt, .float64⟩, .dt .float64, .dt .float64, true⟩ :=
  ⟨by decide, rfl⟩

/-- C5 amended: the structural-hash input of an elementwise binary Operation
is a digest of exactly the operator kind and the two operand-type descriptors
(not of the retSame flag): two Operations feed identical inputs to the digest
if and only if they agree on kind, first operand type and second operand type. -/
theorem c5_amended_hash_exactly_kind_and_types (op1 op2 : elemBinOp) :
    op1.hashStream = op2.hashStream ↔
      (op1.binOpTypeOf = op2.binOpTypeOf ∧ op1.arg0 = op2.arg0 ∧ op1.arg1 = op2.arg1) := by
  constructor
  · intro h
    have h1 : op1.binOpTypeOf.code = op2.binOpTypeOf.code := congrArg Prod.fst h
    have h2 : op1.arg0.reprChars ++ ',' :: op1.arg1.reprChars
        = op2.arg0.reprChars ++ ',' :: op2.arg1.reprChars := congrArg Prod.snd h
    have hsplit := sep_append_inj ',' op1.arg0.reprChars op2.arg0.reprChars
      op1.arg1.reprChars op2.arg1.reprChars
      (comma_not_mem_reprChars op1.arg0) (comma_not_mem_reprChars op2.arg0) h2
    exact ⟨binOpCode_inj _ _ h1, reprChars_inj _ _ hsplit.1, reprChars_inj _ _ hsplit.2⟩
  · rintro ⟨h1, h2, h3⟩
    simp [elemBinOp.hashStream, h1, h2, h3]

/-- A rank-2-or-higher shape never takes the plain-vector branch of
sumOp.inferShape. -/
lemma vecBranch_false (a b : ℕ) (rest : List ℕ) :
    (Shape.isVector (a :: b :: rest) && !Shape.isRowVec (a :: b :: rest)
      && !Shape.isColVec (a :: b :: rest)) = false := by
  cases rest with
  | nil =>
    by_cases ha : a = 1 <;> by_cases hb : b = 1 <;>
      simp [Shape.isVector, Shape.isRowVec, Shape.isColVec, ha, hb]
  | cons c cs => simp [Shape.isVector]

/-- When every listed axis is in bounds, the axis-collapsing loop succeeds and
computes exactly the fold that sets each listed axis to 1. -/
lemma setAxes_ok : ∀ (along : List ℕ) (s : Shape),
    (∀ a ∈ along, a < s.length) → setAxes along s = .ok (collapseAxes along s) := by
  intro along
  induction along with
  | nil => intro s _; rfl
  | cons a rest ih =>
    intro s hb
    have ha : a < s.length := hb a (List.mem_cons_self a rest)
    simp only [setAxes, collapseAxes, List.foldl_cons]
    rw [if_pos ha]
    exact ih (s.set a 1) (fun x hx => by
      rw [List.length_set]; exact hb x (List.mem_cons_of_mem a hx))

/-- C6 amended: sum shape inference collapses each listed axis to size 1 but
keeps the collapsed size-1 axes in place: only when every axis is reduced (a
monotonic increment-1 axis list covering the whole rank, or a fully collapsed
shape equal to the one-one shape) does the result become the scalar shape; a
rank-1 vector fully reduced, and a scalar input, also give the scalar shape.
In particular shape [2,3] along axis 1 infers [2,1], not [2]. -/
theorem c6_amended_sum_infershape :
    (∀ (op : sumOp) (s : Shape), 2 ≤ s.length → op.along.length ≤ s.length →
      (∀ a ∈ op.along, a < s.length) →
      op.inferShape [s] = .ok (if (((monotonicIncr1 op.along).1
            && (monotonicIncr1 op.along).2 && (op.along.length == s.length))
          || (collapseAxes op.along s == oneone))
        then scalarShape else collapseAxes op.along s)) ∧
    (∀ (op : sumOp) (n : ℕ), op.along = [0] → op.inferShape [[n]] = .ok scalarShape) ∧
    (∀ op : sumOp, op.inferShape [[]] = .ok scalarShape) := by
  refine ⟨?_, ?_, ?_⟩
  · intro op s h2 hlen hb
    rcases s with _ | ⟨a, _ | ⟨b, rest⟩⟩
    · simp at h2
    · simp at h2
    · have hnotgt : ¬ (op.along.length > (a :: b :: rest).length) := Nat.not_lt.mpr hlen
      have hax := setAxes_ok op.along (a :: b :: rest) hb
      have c1 : ¬(Shape.isScalar (a :: b :: rest) = true) := by simp [Shape.isScalar]
      have c2 : ¬((Shape.isVector (a :: b :: rest) && !Shape.isRowVec (a :: b :: rest)
          && !Shape.isColVec (a :: b :: rest)) = true) := by simp [vecBranch_false]
      simp only [sumOp.inferShape]
      rw [if_neg c1, if_neg c2, if_neg hnotgt]
      cases hmono : ((monotonicIncr1 op.along).1 && (monotonicIncr1 op.along).2
          && (op.along.length == (a :: b :: rest).length)) with
      | false =>
        rw [hax]
        cases hcol : (collapseAxes op.along (a :: b :: rest) == oneone) with
        | false => simp [hcol]
        | true => simp [hcol]
      | true => simp
  · intro op n h
    cases op
    subst h
    rfl
  · intro op
    rfl

/-- C6 counterexample: summing an input of shape [2,3] along axis 1 infers the
shape [2,1], not the claimed [2] — the size-1 axis is kept. -/
theorem c6_counterexample_sum_keeps_size_one_axis :
    sumOp.inferShape ⟨[1], 2, [2, 3]⟩ [[2, 3]] = .ok [2, 1] ∧
    sumOp.inferShape ⟨[1], 2, [2, 3]⟩ [[2, 3]] ≠ .ok [2] := by
  decide

/-- Witness for C6 amended at a concrete input: shape [3,4] summed along axis
0 infers [1,4]. -/
theorem c6_witness_sum_infershape_concrete :
    sumOp.inferShape ⟨[0], 2, [3, 4]⟩ [[3, 4]] = .ok [1, 4] := by
  have h := c6_amended_sum_infershape.1 ⟨[0], 2, [3, 4]⟩ [3, 4]
    (by decide) (by decide) (by decide)
  exact h.trans (by decide)

/-- C7: on every input nodes, HadamardPow differentiation fails not-yet-
implemented in both its symbolic-expression and numeric backward forms, and
every comparison (non-arithmetic) kind is dispatched to the non-differentiable
failure functions, which always fail with the non-differentiable errors. -/
theorem c7_pow_and_comparison_diff_fail (x y z grad : GNode) :
    hadamardPowDiffExpr x y z grad
        = .error (.plain "hadamardPowDiffExpr not yet implemented") ∧
    hadamardPowDiff x y z = .error (.plain "hadamardPowDiff not yet implemented") ∧
    binOpDiffExprs .pow = some hadamardPowDiffExpr ∧
    binOpDiffFns .pow = some hadamardPowDiff ∧
    (∀ k : BinOpType, k.isArith = false →
      binOpDiffExprs k = some nondiffBinOpExpr ∧
      binOpDiffFns k = some nondiffBinOp ∧
      nondiffBinOpExpr x y z grad = .error (.plain "Nondifferentiable") ∧
      nondiffBinOp x y z = .error (.plain "Non differentiable")) := by
  refine ⟨rfl, rfl, rfl, rfl, ?_⟩
  intro k hk
  cases k <;> simp [BinOpType.isArith] at hk <;>
    exact ⟨rfl, rfl, rfl, rfl⟩

/-- Witness for C7 at a concrete comparison kind: Lt is dispatched to the
non-differentiable failure functions, and they fail. -/
theorem c7_witness_lt_nondifferentiable :
    binOpDiffExprs .lt = some nondiffBinOpExpr ∧
    nondiffBinOpExpr (.atom []) (.atom []) (.atom []) (.atom [])
        = .error (.plain "Nondifferentiable") := by
  have h := (c7_pow_and_comparison_diff_fail (.atom []) (.atom []) (.atom [])
    (.atom [])).2.2.2.2 .lt rfl
  exact ⟨h.1, h.2.2.1⟩

end Gor
